import Mathlib

/-!
Shallow embedding of the `sshttp` package (Go): an adapter exposing files on a
remote SFTP host through `net/http` abstractions.  The embedding covers:

* `stickyError` (first-error accumulator),
* the `clientPair` pool of the `RoundTripper` (`Dial`, `lazyDial`, `Close`,
  `RoundTrip`),
* the `get` algorithm (open / stat / content-type discovery / streaming pipe),
* the `httpResponse` header-assembly helper,
* the `FileSystem` adapter (`Open`, `Close`) and `File.Readdir` paging,
* faithful models of the Go standard-library helpers the code calls:
  `path/filepath.Clean`, `Join`, `Dir`, `Base`, `Ext`, `io.CopyN`,
  `mime.TypeByExtension` (as an explicit extension table).

Remote I/O is modelled by explicit environments (functions from paths or hosts
to results); machine integers are `Nat`/`Int`; Go `error` values are
`Option GoErr` (with `none` for `nil`); fallible operations return `Except`.
-/

/-- Model of the Go `error` values that appear in the package:
`io.EOF`, `*sftp.StatusError` (carrying its numeric code), and any other
error (identified by a string message). -/
inductive GoErr where
  | eof
  | sftpStatus (code : Nat)
  | str (s : String)
deriving DecidableEq, Repr

deriving instance DecidableEq for Except

/-- `sftpNoSuchFile` constant from roundtripper.go: the SFTP status code for a
file which does not exist. -/
def sftpNoSuchFile : Nat := 2

/-- `stickyError`: traps the first (non-nil) error sent to `Set` and ignores
all later ones. -/
structure StickyError where
  err : Option GoErr
deriving DecidableEq, Repr

/-- `stickyError.Set`: if an error has already occurred it is kept, otherwise
the incoming one is stored. -/
def StickyError.set (e : StickyError) (x : Option GoErr) : StickyError :=
  match e.err with
  | some _ => e
  | none => { err := x }

/-- `stickyError.Get`: returns the first error received. -/
def StickyError.get (e : StickyError) : Option GoErr := e.err

/-! ## Go `path/filepath` helpers (Unix rules, as the code runs them) -/

/-- Split a character list on `/`, keeping empty segments
(the segment decomposition used to model `filepath.Clean`). -/
def splitSegs : List Char → List (List Char)
  | [] => [[]]
  | c :: cs =>
    let r := splitSegs cs
    if c = '/' then [] :: r
    else
      match r with
      | s :: rest => (c :: s) :: rest
      | [] => [[c]]

/-- Segment loop of `filepath.Clean`: drops empty and `.` segments, resolves
`..` by popping the previous segment when possible; when nothing can be popped
a rooted path drops the `..` and an unrooted path keeps it.  `acc` holds the
output segments in reverse. -/
def cleanSegs (rooted : Bool) : List (List Char) → List (List Char) → List (List Char)
  | [], acc => acc.reverse
  | s :: rest, acc =>
    if s = [] ∨ s = ['.'] then cleanSegs rooted rest acc
    else if s = ['.', '.'] then
      match acc with
      | [] => if rooted then cleanSegs rooted rest [] else cleanSegs rooted rest [['.', '.']]
      | t :: acc' =>
        if t = ['.', '.'] then cleanSegs rooted rest (s :: acc)
        else cleanSegs rooted rest acc'
    else cleanSegs rooted rest (s :: acc)

/-- Rejoin cleaned segments with `/`. -/
def joinSegs : List (List Char) → List Char
  | [] => []
  | [s] => s
  | s :: rest => s ++ '/' :: joinSegs rest

/-- Model of Go `path/filepath.Clean` (Unix separator). -/
def goClean (p : String) : String :=
  match p.data with
  | [] => "."
  | c :: _ =>
    let rooted := c = '/'
    let outSegs := cleanSegs rooted (splitSegs p.data) []
    match outSegs with
    | [] => if rooted then "/" else "."
    | _ => (if rooted then "/" else "") ++ String.mk (joinSegs outSegs)

/-- Model of Go `path/filepath.Join` for two elements: empty elements are
skipped, the rest are joined with `/` and cleaned. -/
def goJoin (a b : String) : String :=
  if a ≠ "" then goClean (a ++ "/" ++ b)
  else if b ≠ "" then goClean b
  else ""

/-- Model of Go `path/filepath.Dir`: the path up to (and including) the final
separator, cleaned; `"."` when there is no separator. -/
def goDir (p : String) : String :=
  goClean (String.mk ((p.data.reverse.dropWhile (fun c => c ≠ '/')).reverse))

/-- Model of Go `path/filepath.Base`: trailing separators removed, then the
last element; `"."` for the empty path and `"/"` for all-separator paths. -/
def goBase (p : String) : String :=
  if p = "" then "."
  else
    let cs := p.data.reverse.dropWhile (fun c => c = '/')
    let last := cs.takeWhile (fun c => c ≠ '/')
    if last = [] then "/" else String.mk last.reverse

/-- Model of Go `path/filepath.Ext`: the suffix of the last element starting at
its final dot, scanning backwards and stopping at a separator; `""` if the last
element has no dot. -/
def goExtRev (acc : List Char) : List Char → String
  | [] => ""
  | c :: rest =>
    if c = '/' then ""
    else if c = '.' then String.mk (c :: acc)
    else goExtRev (c :: acc) rest

/-- `filepath.Ext` over a whole path. -/
def goExt (p : String) : String :=
  goExtRev [] p.data.reverse

/-- Model of `mime.TypeByExtension` as lookup in an explicit extension table;
returns `""` when the extension is not in the table (the Go function's
"unknown" result). -/
def typeByExtension (tbl : List (String × String)) (ext : String) : String :=
  match tbl.find? (fun kv => kv.1 == ext) with
  | some kv => kv.2
  | none => ""

/-! ## Remote file handles and `io` primitives -/

/-- An open SFTP file handle (`*sftp.File`): its remote path, its contents as
bytes, its read cursor, and the outcomes the remote end would give to `Stat`,
`Seek` and `Close` calls on it (`none` = success / `nil` error). -/
structure FileH where
  name : String
  contents : List Nat
  pos : Nat
  isDir : Bool
  statErr : Option GoErr
  seekErr : Option GoErr
  closeErr : Option GoErr
  modTimeHTTP : String
deriving DecidableEq, Repr

/-- Result of `f.Stat()`: size, (base) name, formatted modification time and
directory flag. -/
structure StatInfo where
  size : Nat
  name : String
  modTimeHTTP : String
  isDir : Bool
deriving DecidableEq, Repr

/-- `f.Stat()`: fails with the handle's stat error, otherwise reports the
file's size (its content length), base name and modification time. -/
def FileH.statOf (f : FileH) : Except GoErr StatInfo :=
  match f.statErr with
  | some e => .error e
  | none => .ok { size := f.contents.length, name := goBase f.name,
                  modTimeHTTP := f.modTimeHTTP, isDir := f.isDir }

/-- `io.CopyN(dst, f, n)`: copies up to `n` bytes from the handle's cursor,
advancing it; returns the bytes copied, the advanced handle, and `io.EOF`
exactly when fewer than `n` bytes were available. -/
def FileH.copyN (f : FileH) (n : Nat) : List Nat × FileH × Option GoErr :=
  let taken := (f.contents.drop f.pos).take n
  (taken, { f with pos := f.pos + taken.length },
   if taken.length < n then some GoErr.eof else none)

/-- `f.Seek(0, os.SEEK_SET)`: rewinds the cursor to byte 0 (or fails with the
handle's seek error). -/
def FileH.seekStart (f : FileH) : Except GoErr FileH :=
  match f.seekErr with
  | some e => .error e
  | none => .ok { f with pos := 0 }

/-- Observable events of the background streaming goroutine, in order:
the bytes written to the pipe, the `f.Close()` call (with its result), and the
`pw.CloseWithError` call carrying the pipe's terminal error. -/
inductive PEvent where
  | write (bs : List Nat)
  | closeFile (err : Option GoErr)
  | closePipe (err : Option GoErr)
deriving DecidableEq, Repr

/-- The goroutine spawned by `get` (roundtripper.go lines 177-188):
`io.CopyN(pw, f, size)`, then `f.Close()`, then `pw.CloseWithError` with the
sticky first error of the copy and the close. -/
def streamFile (f : FileH) (size : Nat) : List PEvent :=
  let r := f.copyN size
  let s1 := StickyError.set { err := none } r.2.2
  let s2 := StickyError.set s1 f.closeErr
  [PEvent.write r.1, PEvent.closeFile f.closeErr, PEvent.closePipe s2.get]

/-! ## HTTP headers and responses -/

/-- `http.Header`: keys with their ordered value lists (the code only uses
canonical-form keys, so no key normalisation is modelled). -/
abbrev Header := List (String × List String)

/-- `h.Set(k, v)`: replace the values of `k` by `[v]`. -/
def hSet : Header → String → String → Header
  | [], k, v => [(k, [v])]
  | (k0, vs) :: rest, k, v =>
    if k0 = k then (k, [v]) :: rest else (k0, vs) :: hSet rest k v

/-- `h.Add(k, v)`: append `v` to the values of `k`. -/
def hAdd : Header → String → String → Header
  | [], k, v => [(k, [v])]
  | (k0, vs) :: rest, k, v =>
    if k0 = k then (k0, vs ++ [v]) :: rest else (k0, vs) :: hAdd rest k v

/-- `h.Get(k)`: the first value of `k`, or `""`. -/
def hGet : Header → String → String
  | [], _ => ""
  | (k0, vs) :: rest, k =>
    if k0 = k then (match vs with | [] => "" | v :: _ => v) else hGet rest k

/-- A `*http.Response` as assembled by this package: status code, body
(`none` for a nil body, otherwise the event trace of the streaming pipe
feeding it), and headers. -/
structure Response where
  statusCode : Nat
  body : Option (List PEvent)
  header : Header
deriving DecidableEq, Repr

/-- `httpResponse(code, body, headers)`: tags the `Server` header, copies all
given headers additively, then defaults `Date` (to the current time `now`),
`Content-Type`, and — for non-200 responses — `Connection`. -/
def httpResponse (code : Nat) (body : Option (List PEvent)) (headers : Header)
    (now : String) : Response :=
  let h : Header := hSet [] "Server" "github.com/mdlayher/sshttp"
  let h := headers.foldl (fun acc kv => kv.2.foldl (fun acc2 vv => hAdd acc2 kv.1 vv) acc) h
  let h := if hGet h "Date" = "" then hSet h "Date" now else h
  let h := if hGet h "Content-Type" = "" then hSet h "Content-Type" "text/plain; charset=utf-8" else h
  let h := if code ≠ 200 ∧ hGet h "Connection" = "" then hSet h "Connection" "close" else h
  { statusCode := code, body := body, header := h }

/-! ## The `get` algorithm (roundtripper.go lines 127-196) -/

/-- Content-type discovery step of `get` (lines 155-173): try the extension
table on the stat name; on a miss, read the first 512 bytes (`io.CopyN`,
failing hard on any error, including `io.EOF` for short files), sniff them
with `detect` (`http.DetectContentType`), and rewind the file. -/
def sniffContentType (tbl : List (String × String)) (detect : List Nat → String)
    (h : Header) (statName : String) (f : FileH) : Except GoErr (Header × FileH) :=
  let cType := typeByExtension tbl (goExt statName)
  if cType ≠ "" then .ok (hSet h "Content-Type" cType, f)
  else
    let r := f.copyN 512
    match r.2.2 with
    | some e => .error e
    | none =>
      let h1 := hSet h "Content-Type" (detect r.1)
      match r.2.1.seekStart with
      | .error e => .error e
      | .ok f2 => .ok (h1, f2)

/-- The `get` function (named `httpGet` here to avoid clashing with the
monad-state `get`): `openRes` is the outcome of `p.sftpc.Open(r.URL.Path)`.
A `*sftp.StatusError` with code `sftpNoSuchFile` becomes a bodyless 404;
any other open failure is returned as the error.  Otherwise the file is
stat'ed, `Content-Length` / `Last-Modified` headers are set, the content type
is discovered, and a 200 response is returned whose body is the streaming
pipe fed by `streamFile`. -/
def httpGet (tbl : List (String × String)) (detect : List Nat → String)
    (openRes : Except GoErr FileH) (now : String) : Except GoErr Response :=
  match openRes with
  | .error e =>
    match e with
    | GoErr.sftpStatus code =>
      if code = sftpNoSuchFile then .ok (httpResponse 404 none [] now)
      else .error (GoErr.sftpStatus code)
    | _ => .error e
  | .ok f =>
    match f.statOf with
    | .error e => .error e
    | .ok stat =>
      let h := hSet (hSet [] "Content-Length" (toString stat.size))
        "Last-Modified" stat.modTimeHTTP
      match sniffContentType tbl detect h stat.name f with
      | .error e => .error e
      | .ok hf => .ok (httpResponse 200 (some (streamFile hf.2 stat.size)) hf.1 now)

/-! ## The `RoundTripper` connection pool (roundtripper.go lines 28-123) -/

/-- A `*clientPair`: one SSH connection plus one SFTP sub-session.  `ptr`
models pointer identity; the error fields are the outcomes the remote end
would give to closing each half (`none` = `nil`). -/
structure ClientPairM where
  ptr : Nat
  sftpCloseErr : Option GoErr
  sshCloseErr : Option GoErr
deriving DecidableEq, Repr

/-- Go map lookup `rt.conn[host]` over the pool's entry list (`none` models
the nil pointer returned for an absent key). -/
def lookupConn : List (String × ClientPairM) → String → Option ClientPairM
  | [], _ => none
  | (k, p) :: rest, host => if k = host then some p else lookupConn rest host

/-- Go map assignment `rt.conn[host] = pair`: overwrites an existing entry,
otherwise appends one. -/
def insertConn : List (String × ClientPairM) → String → ClientPairM →
    List (String × ClientPairM)
  | [], host, pair => [(host, pair)]
  | (k, p) :: rest, host, pair =>
    if k = host then (host, pair) :: rest else (k, p) :: insertConn rest host pair

/-- A `RoundTripper`: the default SSH client configuration and the
host-to-`clientPair` pool. -/
structure RTState (Config : Type) where
  config : Config
  conn : List (String × ClientPairM)
deriving DecidableEq, Repr

/-- `RoundTripper.Dial(host, config)`: a nil (`none`) config falls back to the
default; `dialSSHSFTP` is the environment `dialEnv`; on success the new pair
is stored in the pool. -/
def RTState.dial {Config : Type} (rt : RTState Config) (host : String)
    (config : Option Config) (dialEnv : String → Config → Except GoErr ClientPairM) :
    Except GoErr (RTState Config) :=
  let cfg := match config with | none => rt.config | some c => c
  match dialEnv host cfg with
  | .error e => .error e
  | .ok pair => .ok { rt with conn := insertConn rt.conn host pair }

/-- `RoundTripper.lazyDial(host)`: returns an existing pool entry, else dials
with the default config and returns the freshly stored entry (`rt.conn[host]`,
a map index, hence the `Option`). -/
def RTState.lazyDial {Config : Type} (rt : RTState Config) (host : String)
    (dialEnv : String → Config → Except GoErr ClientPairM) :
    Except GoErr (Option ClientPairM × RTState Config) :=
  match lookupConn rt.conn host with
  | some p => .ok (some p, rt)
  | none =>
    match rt.dial host (some rt.config) dialEnv with
    | .error e => .error e
    | .ok rt1 => .ok (lookupConn rt1.conn host, rt1)

/-- Loop body of `RoundTripper.Close`: close each pair's SFTP client, then its
SSH client, deleting the entry only after both close calls succeed; the first
close error is returned at once, leaving the failing entry and all
not-yet-visited entries in the pool. -/
def rtCloseAll : List (String × ClientPairM) →
    List (String × ClientPairM) × Option GoErr
  | [] => ([], none)
  | (k, p) :: rest =>
    match p.sftpCloseErr with
    | some e => ((k, p) :: rest, some e)
    | none =>
      match p.sshCloseErr with
      | some e => ((k, p) :: rest, some e)
      | none => rtCloseAll rest

/-- `RoundTripper.Close`. -/
def RTState.closeAll {Config : Type} (rt : RTState Config) :
    RTState Config × Option GoErr :=
  let r := rtCloseAll rt.conn
  ({ rt with conn := r.1 }, r.2)

/-- An HTTP request as used by `RoundTrip`: method, `r.URL.Host` and
`r.URL.Path`. -/
structure RequestM where
  method : String
  host : String
  path : String
deriving DecidableEq, Repr

/-- `RoundTripper.RoundTrip`: lazily dial `r.URL.Host` (a dial failure is
returned as the error before the method is inspected); `GET` delegates to
`get` on `p.sftpc.Open(r.URL.Path)` (`openEnv p r.path`); any other method
yields a bodyless 405 response. -/
def roundTrip {Config : Type} (rt : RTState Config) (r : RequestM)
    (dialEnv : String → Config → Except GoErr ClientPairM)
    (openEnv : ClientPairM → String → Except GoErr FileH)
    (tbl : List (String × String)) (detect : List Nat → String) (now : String) :
    Except GoErr (Option Response × RTState Config) :=
  match rt.lazyDial r.host dialEnv with
  | .error e => .error e
  | .ok prt =>
    if r.method = "GET" then
      match prt.1 with
      | some p =>
        match httpGet tbl detect (openEnv p r.path) now with
        | .error e => .error e
        | .ok resp => .ok (some resp, prt.2)
      -- a nil pair would make `p.sftpc.Open` panic; unreachable after a
      -- successful lazyDial, which always stores and returns a pair
      | none => .error (GoErr.str "nil clientPair dereference")
    else
      .ok (some (httpResponse 405 none [] now), prt.2)

/-! ## The `FileSystem` adapter and `File.Readdir` paging -/

/-- One `os.FileInfo` directory entry (only the base name is relevant to the
paging logic). -/
structure FInfo where
  name : String
deriving DecidableEq, Repr

/-- Go's `<` on strings, character list form: lexicographic on code points
(equal to byte-wise comparison of the UTF-8 encodings). -/
def nameLtChars : List Char → List Char → Bool
  | [], [] => false
  | [], _ :: _ => true
  | _ :: _, [] => false
  | a :: as, b :: bs =>
    if a.toNat < b.toNat then true
    else if b.toNat < a.toNat then false
    else nameLtChars as bs

/-- Go's `<` on strings (the `Less` of `byBaseName`). -/
def nameLt (a b : String) : Bool := nameLtChars a.data b.data

/-- Insertion step for `sort.Sort(byBaseName(fis))`: strict byte-wise `<` on
base names (names are unique within a directory, so every comparison sort
yields this order). -/
def insertByName (x : FInfo) : List FInfo → List FInfo
  | [] => [x]
  | y :: ys => if nameLt y.name x.name then y :: insertByName x ys else x :: y :: ys

/-- `sort.Sort(byBaseName(fis))`. -/
def sortByBaseName : List FInfo → List FInfo
  | [] => []
  | x :: xs => insertByName x (sortByBaseName xs)

/-- An `sshttp.File` (the `http.File` returned by `FileSystem.Open`): the
`name` used by `Readdir`, the directory-paging `offset`, and the `eofNext`
flag.  (The embedded `*sftp.File` and the SFTP client are modelled by the
read-dir environment passed to `readdir`.) -/
structure FileM where
  name : String
  offset : Nat
  eofNext : Bool
deriving DecidableEq, Repr

/-- `File.Readdir(count)`: once `eofNext` is set it fails with `io.EOF`;
otherwise it re-fetches the listing of `filepath.Dir(f.name)` via `rdEnv`
(`f.sftpc.ReadDir`), sorts it by base name, and pages it: for `count <= 0` or
a listing no longer than `count` it returns the whole (sorted) listing and
arms `eofNext`; if at most `count` entries remain past `offset` it returns
them and arms `eofNext`; otherwise it returns the next `count` entries and
advances `offset`. -/
def FileM.readdir (f : FileM) (rdEnv : String → Except GoErr (List FInfo))
    (count : Int) : Except GoErr (List FInfo × FileM) :=
  if f.eofNext then .error GoErr.eof
  else
    match rdEnv (goDir f.name) with
    | .error e => .error e
    | .ok fis0 =>
      let fis := sortByBaseName fis0
      if count ≤ 0 ∨ (fis.length : Int) ≤ count then
        .ok (fis, { f with eofNext := true })
      else if (fis.length : Int) - (f.offset : Int) ≤ count then
        .ok (fis.drop f.offset, { f with eofNext := true })
      else
        .ok ((fis.drop f.offset).take count.toNat,
             { f with offset := f.offset + count.toNat })

/-- An `sshttp.FileSystem`: its root path (the `clientPair` is modelled by the
environments passed to `fsOpen` and `closePair`). -/
structure FileSystemM where
  path : String
deriving DecidableEq, Repr

/-- `FileSystem.Open(name)`: joins `name` onto the root, opens the physical
path (`openEnv` models `fs.pair.sftpc.Open`), builds the `File` with
`name := fs.path`, stats it, and only for a directory replaces the file's
name by the physical path with a trailing slash. -/
def FileSystemM.fsOpen (fs : FileSystemM) (name : String)
    (openEnv : String → Except GoErr FileH) : Except GoErr FileM :=
  let fpath := goJoin fs.path name
  match openEnv fpath with
  | .error e => .error e
  | .ok f =>
    let file : FileM := { name := fs.path, offset := 0, eofNext := false }
    match f.statOf with
    | .error e => .error e
    | .ok stat =>
      .ok (if stat.isDir then { file with name := fpath ++ "/" } else file)

/-- Result of `FileSystem.Close`: whether each half's `Close` was invoked,
and the returned error. -/
structure FSCloseResult where
  sftpcClosed : Bool
  sshcClosed : Bool
  ret : Option GoErr
deriving DecidableEq, Repr

/-- `FileSystem.Close`: unconditionally closes the SFTP sub-session, then the
SSH connection, folding both outcomes through a `stickyError` and returning
its first trapped error. -/
def FileSystemM.closePair (pair : ClientPairM) : FSCloseResult :=
  let s0 : StickyError := { err := none }
  let s1 := s0.set pair.sftpCloseErr
  let s2 := s1.set pair.sshCloseErr
  { sftpcClosed := true, sshcClosed := true, ret := s2.get }

/-! ## Shared helper lemmas -/

/-- Evaluation of the streaming goroutine for a handle at cursor 0: it writes
the first `n` bytes of the file and the pipe's terminal error is the sticky
first error of the copy (`io.EOF` iff fewer than `n` bytes were available)
and the file close. -/
lemma streamFile_eq (f : FileH) (h : f.pos = 0) (n : Nat) :
    streamFile f n =
      [PEvent.write (f.contents.take n), PEvent.closeFile f.closeErr,
       PEvent.closePipe (if f.contents.length < n then some GoErr.eof
                         else f.closeErr)] := by
  by_cases hlt : f.contents.length < n
  · simp [streamFile, FileH.copyN, h, hlt, StickyError.set, StickyError.get]
  · simp [streamFile, FileH.copyN, h, hlt, StickyError.set, StickyError.get]

/-- A prefix of pool entries whose two close operations all succeed is closed
and removed, leaving `rtCloseAll` to continue on the remaining entries. -/
lemma rtCloseAll_append_clean : ∀ (good tail : List (String × ClientPairM)),
    (∀ kp ∈ good, kp.2.sftpCloseErr = none ∧ kp.2.sshCloseErr = none) →
    rtCloseAll (good ++ tail) = rtCloseAll tail
  | [], _, _ => rfl
  | (k0, p0) :: tl, tail, hgood => by
    have h1 : p0.sftpCloseErr = none := (hgood (k0, p0) (List.mem_cons_self _ _)).1
    have h2 : p0.sshCloseErr = none := (hgood (k0, p0) (List.mem_cons_self _ _)).2
    have hrec := rtCloseAll_append_clean tl tail
      (fun kp hm => hgood kp (List.mem_cons_of_mem _ hm))
    simp only [List.cons_append, rtCloseAll, h1, h2]
    exact hrec

/-- Inserting a pair for a host makes it the pool's entry for that host. -/
lemma lookupConn_insertConn (conn : List (String × ClientPairM)) (host : String)
    (pair : ClientPairM) :
    lookupConn (insertConn conn host pair) host = some pair := by
  induction conn with
  | nil => simp [insertConn, lookupConn]
  | cons hd tl ih =>
    obtain ⟨k, p⟩ := hd
    by_cases hk : k = host
    · simp [insertConn, lookupConn, hk]
    · simp [insertConn, lookupConn, hk, ih]

/-- A successful `lazyDial` returns exactly the pool's entry for the host in
the state it also returns (and that entry is a real pair, never nil). -/
lemma lazyDial_ok_lookup {Config : Type} (rt : RTState Config) (host : String)
    (env : String → Config → Except GoErr ClientPairM)
    (op : Option ClientPairM) (rt1 : RTState Config)
    (h : rt.lazyDial host env = .ok (op, rt1)) :
    lookupConn rt1.conn host = op ∧ ∃ p, op = some p := by
  cases hl : lookupConn rt.conn host with
  | some p =>
    simp only [RTState.lazyDial, hl, Except.ok.injEq, Prod.mk.injEq] at h
    obtain ⟨h1, h2⟩ := h
    subst h2
    exact ⟨h1 ▸ hl, p, h1.symm⟩
  | none =>
    simp only [RTState.lazyDial, hl] at h
    cases hd : env host rt.config with
    | error e =>
      simp only [RTState.dial, hd] at h
      exact absurd h (by simp)
    | ok pair =>
      simp only [RTState.dial, hd, Except.ok.injEq, Prod.mk.injEq] at h
      obtain ⟨h1, h2⟩ := h
      subst h2
      exact ⟨h1, pair, h1.symm.trans (lookupConn_insertConn rt.conn host pair)⟩

/-! ## Claim theorems -/

/-- Directory whose sorted listing is `a.png, b.png`, as seen by the SFTP
`ReadDir` environment. -/
def c1RdEnv : String → Except GoErr (List FInfo) :=
  fun d => if d = "/root/pics" then .ok [⟨"b.png"⟩, ⟨"a.png"⟩]
           else .error (GoErr.str "no such dir")

/-- A paging handle over that directory. -/
def c1Handle : FileM := { name := "/root/pics/x", offset := 0, eofNext := false }

/-- C1: Readdir does NOT return the remaining entries from the current offset
in its `count <= 0 || len(fis) <= count` branch — it returns the whole sorted
listing from the start.  After `Readdir(1)` delivered `a.png` and left
`offset = 1`, a follow-up `Readdir(0)` (where `doneSignaled` is still false
and `count <= 0`) returns both entries, re-delivering `a.png`, instead of the
remainder `[b.png]` that the claim requires. -/
theorem c1_readdir_restarts_at_zero :
    FileM.readdir c1Handle c1RdEnv 1 =
      .ok ([⟨"a.png"⟩], { name := "/root/pics/x", offset := 1, eofNext := false }) ∧
    FileM.readdir { name := "/root/pics/x", offset := 1, eofNext := false } c1RdEnv 0 =
      .ok ([⟨"a.png"⟩, ⟨"b.png"⟩],
           { name := "/root/pics/x", offset := 1, eofNext := true }) :=
  ⟨by decide, by decide⟩

/-- An extension table that does not know `.zzz`. -/
def c2Tbl : List (String × String) := [(".txt", "text/plain; charset=utf-8")]

/-- The sniffing function (`http.DetectContentType`) — never consulted before
the copy fails. -/
def c2Detect : List Nat → String := fun _ => "application/octet-stream"

/-- An existing empty remote file with an unrecognized extension. -/
def c2File0 : FileH :=
  { name := "/home/user/data.zzz", contents := [], pos := 0, isDir := false,
    statErr := none, seekErr := none, closeErr := none,
    modTimeHTTP := "Mon, 02 Jan 2006 15:04:05 GMT" }

/-- The same file with a single byte of content. -/
def c2File1 : FileH := { c2File0 with contents := [104] }

/-- C2: for an existing file with an unrecognized extension that is shorter
than 512 bytes (sizes 0 and 1 shown), `get` does not succeed: `io.CopyN`
reports `io.EOF` after the short read and `get` returns it as a hard error
(nil response) instead of sniffing the available prefix and returning 200. -/
theorem c2_short_file_probe_fails :
    httpGet c2Tbl c2Detect (.ok c2File0) "now" = .error GoErr.eof ∧
    httpGet c2Tbl c2Detect (.ok c2File1) "now" = .error GoErr.eof :=
  ⟨rfl, rfl⟩

/-- Classifies the open errors that `get` maps to a 404: exactly the SFTP
status errors carrying `sftpNoSuchFile`. -/
def isNoSuchFileErr : GoErr → Bool
  | GoErr.sftpStatus c => c == sftpNoSuchFile
  | _ => false

/-- C3: an open failure with the SFTP "no such file" status code yields a 404
response with an empty (nil) body and no error, while every other open
failure — whether a status error with a different code or a non-status
error — is returned as the error with a nil response. -/
theorem c3_open_failure_mapping (tbl : List (String × String))
    (detect : List Nat → String) (now : String) (e : GoErr) :
    (httpGet tbl detect (.error (GoErr.sftpStatus sftpNoSuchFile)) now =
        .ok (httpResponse 404 none [] now) ∧
      (httpResponse 404 none [] now).statusCode = 404 ∧
      (httpResponse 404 none [] now).body = none) ∧
    (isNoSuchFileErr e = false →
      httpGet tbl detect (.error e) now = .error e) := by
  refine ⟨⟨rfl, rfl, rfl⟩, ?_⟩
  intro he
  cases e with
  | eof => rfl
  | str s => rfl
  | sftpStatus c =>
    have hc : ¬(c = sftpNoSuchFile) := by simpa [isNoSuchFileErr] using he
    simp [httpGet, hc]

/-- Witness for C3: a concrete non-status open failure is propagated as the
error. -/
theorem c3_open_failure_mapping_witness :
    isNoSuchFileErr (GoErr.str "connection reset") = false ∧
    httpGet [] (fun _ => "") (.error (GoErr.str "connection reset")) "" =
      .error (GoErr.str "connection reset") :=
  ⟨rfl, (c3_open_failure_mapping [] (fun _ => "") "" (GoErr.str "connection reset")).2 rfl⟩

/-- C4: for a file streamed from cursor 0, the producer copies exactly
`size = n` bytes, so the pipe carries the file's contents byte-for-byte and
in order; it then closes the remote file and then the pipe's write side, and
the pipe's terminal error is the sticky first error of the copy and the
close (for the exact-size copy the copy error is nil, so the close error —
if any — is what the reader observes). -/
theorem c4_stream_roundtrip (f : FileH) (h : f.pos = 0) :
    streamFile f f.contents.length =
      [PEvent.write f.contents, PEvent.closeFile f.closeErr,
       PEvent.closePipe f.closeErr] ∧
    ∀ n : Nat, streamFile f n =
      [PEvent.write (f.contents.take n), PEvent.closeFile f.closeErr,
       PEvent.closePipe (if f.contents.length < n then some GoErr.eof
                         else f.closeErr)] := by
  refine ⟨?_, streamFile_eq f h⟩
  have := streamFile_eq f h f.contents.length
  simpa [List.take_length] using this

/-- A 3-byte file whose remote close fails. -/
def c4File : FileH :=
  { name := "/f", contents := [1, 2, 3], pos := 0, isDir := false,
    statErr := none, seekErr := none, closeErr := some (GoErr.str "close failed"),
    modTimeHTTP := "" }

/-- Witness for C4: the 3-byte file streams its three bytes in order, and the
close failure becomes the terminal error; over-long copies surface `io.EOF`
first. -/
theorem c4_stream_roundtrip_witness :
    c4File.pos = 0 ∧
    streamFile c4File c4File.contents.length =
      [PEvent.write [1, 2, 3], PEvent.closeFile (some (GoErr.str "close failed")),
       PEvent.closePipe (some (GoErr.str "close failed"))] ∧
    streamFile c4File 5 =
      [PEvent.write [1, 2, 3], PEvent.closeFile (some (GoErr.str "close failed")),
       PEvent.closePipe (some GoErr.eof)] :=
  ⟨rfl, (c4_stream_roundtrip c4File rfl).1, by
    have := (c4_stream_roundtrip c4File rfl).2 5
    simpa using this⟩

/-- C6: `FileSystem.Close` always performs both cleanup steps — closing the
SFTP sub-session and then the SSH connection — and returns the first non-nil
error of the two, discarding a later one. -/
theorem c6_fs_close_sticky (p : ClientPairM) :
    (FileSystemM.closePair p).sftpcClosed = true ∧
    (FileSystemM.closePair p).sshcClosed = true ∧
    (FileSystemM.closePair p).ret =
      (match p.sftpCloseErr with
       | some e => some e
       | none => p.sshCloseErr) := by
  refine ⟨rfl, rfl, ?_⟩
  cases hp : p.sftpCloseErr <;>
    simp [FileSystemM.closePair, StickyError.set, StickyError.get, hp]

/-- First error encountered while closing one pair: the SFTP sub-session's
close error if any, otherwise the SSH connection's. -/
def pairFirstCloseErr (p : ClientPairM) : Option GoErr :=
  match p.sftpCloseErr with
  | some e => some e
  | none => p.sshCloseErr

/-- C5: `RoundTripper.Close` walks the pool closing each pair's SFTP
sub-session and then its SSH connection, deleting an entry only after both
closes succeed; at the first close error it stops and returns that error,
leaving the failing entry and every not-yet-visited entry in the pool (and
when every close succeeds the pool is emptied with a nil error). -/
theorem c5_close_all_stops_at_first_error
    (good rest : List (String × ClientPairM)) (k : String) (bad : ClientPairM)
    (e : GoErr)
    (hgood : ∀ kp ∈ good, kp.2.sftpCloseErr = none ∧ kp.2.sshCloseErr = none)
    (hbad : pairFirstCloseErr bad = some e) :
    rtCloseAll (good ++ (k, bad) :: rest) = ((k, bad) :: rest, some e) ∧
    ∀ pool : List (String × ClientPairM),
      (∀ kp ∈ pool, kp.2.sftpCloseErr = none ∧ kp.2.sshCloseErr = none) →
      rtCloseAll pool = ([], none) := by
  constructor
  · rw [rtCloseAll_append_clean good ((k, bad) :: rest) hgood]
    cases hb : bad.sftpCloseErr with
    | some e0 =>
      have he : e0 = e := by
        simpa [pairFirstCloseErr, hb] using hbad
      subst he
      simp [rtCloseAll, hb]
    | none =>
      have hssh : bad.sshCloseErr = some e := by
        simpa [pairFirstCloseErr, hb] using hbad
      simp [rtCloseAll, hb, hssh]
  · intro pool hclean
    have := rtCloseAll_append_clean pool [] hclean
    simpa using this

/-- A pair whose SFTP sub-session close fails. -/
def c5BadPair : ClientPairM :=
  { ptr := 1, sftpCloseErr := some (GoErr.str "sftp close failed"),
    sshCloseErr := none }

/-- A pair that closes cleanly. -/
def c5OkPair : ClientPairM := { ptr := 2, sftpCloseErr := none, sshCloseErr := none }

/-- Witness for C5: on a two-host pool where the first host's sub-session
close fails, `Close` returns that failure and both the failing entry and the
second host's pair remain pooled. -/
theorem c5_close_all_stops_at_first_error_witness :
    pairFirstCloseErr c5BadPair = some (GoErr.str "sftp close failed") ∧
    rtCloseAll [("h1:22", c5BadPair), ("h2:22", c5OkPair)] =
      ([("h1:22", c5BadPair), ("h2:22", c5OkPair)],
       some (GoErr.str "sftp close failed")) :=
  ⟨rfl,
   (c5_close_all_stops_at_first_error [] [("h2:22", c5OkPair)] "h1:22" c5BadPair
     (GoErr.str "sftp close failed") (by simp) rfl).1⟩

/-- C7: `lazyDial` returns the existing pair for a pooled host without
consulting the dial environment at all; for an absent host it dials with the
default configuration and returns (and pools) the new pair; and after any
successful `lazyDial`, a second `lazyDial` for the same host returns the
identical pair and the identical pool state under *every* dial environment —
i.e. the two calls perform at most one dial. -/
theorem c7_lazy_resolve {Config : Type} (rt : RTState Config) (host : String)
    (dialEnv : String → Config → Except GoErr ClientPairM)
    (p pair : ClientPairM) (op : Option ClientPairM) (rt1 : RTState Config) :
    (lookupConn rt.conn host = some p →
      ∀ env2, rt.lazyDial host env2 = .ok (some p, rt)) ∧
    (lookupConn rt.conn host = none → dialEnv host rt.config = .ok pair →
      rt.lazyDial host dialEnv =
        .ok (some pair, { rt with conn := insertConn rt.conn host pair })) ∧
    (rt.lazyDial host dialEnv = .ok (op, rt1) →
      ∀ env2, rt1.lazyDial host env2 = .ok (op, rt1)) := by
  refine ⟨?_, ?_, ?_⟩
  · intro h env2
    simp [RTState.lazyDial, h]
  · intro h1 h2
    simp [RTState.lazyDial, RTState.dial, h1, h2, lookupConn_insertConn]
  · intro h env2
    obtain ⟨hl, p', hp⟩ := lazyDial_ok_lookup rt host dialEnv op rt1 h
    subst hp
    simp [RTState.lazyDial, hl]

/-- The pair returned by the witness's dial environment. -/
def c7Pair : ClientPairM := { ptr := 7, sftpCloseErr := none, sshCloseErr := none }

/-- Dial environment that would succeed. -/
def c7Dial : String → Nat → Except GoErr ClientPairM := fun _ _ => .ok c7Pair

/-- Dial environment that would fail — used to show the second call never
dials. -/
def c7DialFail : String → Nat → Except GoErr ClientPairM :=
  fun _ _ => .error (GoErr.str "dial refused")

/-- An empty pool with default config `0`. -/
def c7RT : RTState Nat := { config := 0, conn := [] }

/-- Witness for C7: `LazyResolve("h1:22")` dials once and pools the pair; the
second call returns the identical pair and state even under a failing dial
environment. -/
theorem c7_lazy_resolve_witness :
    lookupConn c7RT.conn "h1:22" = none ∧
    c7Dial "h1:22" c7RT.config = .ok c7Pair ∧
    c7RT.lazyDial "h1:22" c7Dial =
      .ok (some c7Pair, { config := 0, conn := [("h1:22", c7Pair)] }) ∧
    RTState.lazyDial { config := 0, conn := [("h1:22", c7Pair)] } "h1:22" c7DialFail =
      .ok (some c7Pair, { config := 0, conn := [("h1:22", c7Pair)] }) :=
  ⟨rfl, rfl,
   (c7_lazy_resolve c7RT "h1:22" c7Dial c7Pair c7Pair (some c7Pair)
     { config := 0, conn := [("h1:22", c7Pair)] }).2.1 rfl rfl,
   (c7_lazy_resolve c7RT "h1:22" c7Dial c7Pair c7Pair (some c7Pair)
     { config := 0, conn := [("h1:22", c7Pair)] }).2.2
     ((c7_lazy_resolve c7RT "h1:22" c7Dial c7Pair c7Pair (some c7Pair)
       { config := 0, conn := [("h1:22", c7Pair)] }).2.1 rfl rfl) c7DialFail⟩

/-- C8: when the stat name's extension is in the extension table, `get` sets
`Content-Type` from the table and hands the *unchanged* handle to the
streaming step — no probe read happens during discovery — so a handle opened
at cursor 0 still streams the full contents from byte 0. -/
theorem c8_recognized_extension_no_probe (tbl : List (String × String))
    (detect : List Nat → String) (f : FileH) (now : String)
    (hstat : f.statErr = none)
    (hct : typeByExtension tbl (goExt (goBase f.name)) ≠ "") :
    httpGet tbl detect (.ok f) now =
      .ok (httpResponse 200 (some (streamFile f f.contents.length))
        (hSet (hSet (hSet [] "Content-Length" (toString f.contents.length))
            "Last-Modified" f.modTimeHTTP)
          "Content-Type" (typeByExtension tbl (goExt (goBase f.name)))) now) ∧
    (f.pos = 0 → streamFile f f.contents.length =
      [PEvent.write f.contents, PEvent.closeFile f.closeErr,
       PEvent.closePipe f.closeErr]) := by
  constructor
  · simp [httpGet, FileH.statOf, hstat, sniffContentType, hct]
  · intro hp
    have := streamFile_eq f hp f.contents.length
    simpa [List.take_length] using this

/-- Extension table knowing `.txt`. -/
def c8Tbl : List (String × String) := [(".txt", "text/plain; charset=utf-8")]

/-- The spec's scenario file `/home/user/hello.txt` containing `"hi\n"`. -/
def c8File : FileH :=
  { name := "/home/user/hello.txt", contents := [104, 105, 10], pos := 0,
    isDir := false, statErr := none, seekErr := none, closeErr := none,
    modTimeHTTP := "Mon, 02 Jan 2006 15:04:05 GMT" }

/-- Witness for C8: the `.txt` file gets its type from the table and its
3-byte body is streamed from byte 0. -/
theorem c8_recognized_extension_no_probe_witness :
    c8File.statErr = none ∧
    typeByExtension c8Tbl (goExt (goBase c8File.name)) ≠ "" ∧
    httpGet c8Tbl (fun _ => "") (.ok c8File) "now" =
      .ok (httpResponse 200 (some (streamFile c8File 3))
        (hSet (hSet (hSet [] "Content-Length" "3")
            "Last-Modified" c8File.modTimeHTTP)
          "Content-Type" "text/plain; charset=utf-8") "now") ∧
    streamFile c8File 3 =
      [PEvent.write [104, 105, 10], PEvent.closeFile none, PEvent.closePipe none] :=
  ⟨rfl, by decide,
   (c8_recognized_extension_no_probe c8Tbl (fun _ => "") c8File "now" rfl
     (by decide)).1,
   (c8_recognized_extension_no_probe c8Tbl (fun _ => "") c8File "now" rfl
     (by decide)).2 rfl⟩

/-- C9: a successful `FileSystem.Open` of a non-directory returns a handle
whose `name` is the configured root `fs.path` (not the joined physical path),
and a `Readdir` on that handle consults the listing of `Dir(fs.path)` — the
root's parent directory — whatever the rest of the read-dir environment
looks like. -/
theorem c9_open_nondir_name_is_root (fs : FileSystemM) (name : String)
    (openEnv : String → Except GoErr FileH)
    (rdEnv : String → Except GoErr (List FInfo)) (count : Int) (f : FileH)
    (hopen : openEnv (goJoin fs.path name) = .ok f)
    (hstat : f.statErr = none) (hdir : f.isDir = false) :
    fs.fsOpen name openEnv = .ok { name := fs.path, offset := 0, eofNext := false } ∧
    FileM.readdir { name := fs.path, offset := 0, eofNext := false } rdEnv count =
      FileM.readdir { name := fs.path, offset := 0, eofNext := false }
        (fun _ => rdEnv (goDir fs.path)) count := by
  constructor
  · simp [FileSystemM.fsOpen, hopen, FileH.statOf, hstat, hdir]
  · rfl

/-- The non-directory handle the witness environment serves for the physical
path `/home/user/hello.txt`. -/
def c9FileH : FileH :=
  { name := "/home/user/hello.txt", contents := [104], pos := 0, isDir := false,
    statErr := none, seekErr := none, closeErr := none, modTimeHTTP := "" }

/-- Open environment serving exactly that physical path. -/
def c9OpenEnv : String → Except GoErr FileH :=
  fun p => if p = "/home/user/hello.txt" then .ok c9FileH
           else .error (GoErr.str "unexpected path")

/-- Witness for C9: with root `/home/user`, opening `/hello.txt` joins to
`/home/user/hello.txt` but the returned handle is named `/home/user`;
`Dir` of the root is `/home`, the root's parent — not `/home/user`, the
directory containing the opened file. -/
theorem c9_open_nondir_name_is_root_witness :
    goJoin "/home/user" "/hello.txt" = "/home/user/hello.txt" ∧
    goDir "/home/user" = "/home" ∧
    FileSystemM.fsOpen ⟨"/home/user"⟩ "/hello.txt" c9OpenEnv =
      .ok { name := "/home/user", offset := 0, eofNext := false } :=
  ⟨by decide, by decide,
   (c9_open_nondir_name_is_root ⟨"/home/user"⟩ "/hello.txt" c9OpenEnv
     (fun _ => .error (GoErr.str "unused")) 0 c9FileH (by decide) rfl rfl).1⟩

/-- C10: `RoundTrip` resolves (lazily dialing if needed) the session for the
request's host *before* inspecting the method: with a non-retrieval method, a
failed resolution yields a nil response and the dial error — not a 405 —
while a successful resolution yields the 405 response, whose body is nil. -/
theorem c10_dispatch_resolves_before_method {Config : Type} (rt : RTState Config)
    (r : RequestM) (dialEnv : String → Config → Except GoErr ClientPairM)
    (openEnv : ClientPairM → String → Except GoErr FileH)
    (tbl : List (String × String)) (detect : List Nat → String) (now : String)
    (e : GoErr) (op : Option ClientPairM) (rt1 : RTState Config)
    (hm : r.method ≠ "GET") :
    (rt.lazyDial r.host dialEnv = .error e →
      roundTrip rt r dialEnv openEnv tbl detect now = .error e) ∧
    (rt.lazyDial r.host dialEnv = .ok (op, rt1) →
      roundTrip rt r dialEnv openEnv tbl detect now =
        .ok (some (httpResponse 405 none [] now), rt1) ∧
      (httpResponse 405 none [] now).body = none ∧
      (httpResponse 405 none [] now).statusCode = 405) := by
  constructor
  · intro h
    simp [roundTrip, h]
  · intro h
    refine ⟨?_, rfl, rfl⟩
    simp [roundTrip, h, hm]

/-- A POST request to `h1:22`. -/
def c10ReqPost : RequestM := { method := "POST", host := "h1:22", path := "/x" }

/-- Open environment (never reached by a non-GET request). -/
def c10OpenEnv : ClientPairM → String → Except GoErr FileH :=
  fun _ _ => .error (GoErr.str "unused")

/-- Dial environment that fails. -/
def c10DialFail : String → Nat → Except GoErr ClientPairM :=
  fun _ _ => .error (GoErr.str "no route to host")

/-- A pair already pooled for `h1:22`. -/
def c10Pair : ClientPairM := { ptr := 3, sftpCloseErr := none, sshCloseErr := none }

/-- A pool that already holds `h1:22`. -/
def c10RTIn : RTState Nat := { config := 0, conn := [("h1:22", c10Pair)] }

/-- Witness for C10: a POST to an unpooled host with a failing dial returns
the dial error (nil response); the same POST with the host pooled returns
the bodyless 405. -/
theorem c10_dispatch_resolves_before_method_witness :
    c10ReqPost.method ≠ "GET" ∧
    roundTrip ({ config := 0, conn := [] } : RTState Nat) c10ReqPost c10DialFail
        c10OpenEnv [] (fun _ => "") "" =
      .error (GoErr.str "no route to host") ∧
    roundTrip c10RTIn c10ReqPost c10DialFail c10OpenEnv [] (fun _ => "") "" =
      .ok (some (httpResponse 405 none [] ""), c10RTIn) :=
  ⟨by decide,
   (c10_dispatch_resolves_before_method { config := 0, conn := [] } c10ReqPost
     c10DialFail c10OpenEnv [] (fun _ => "") "" (GoErr.str "no route to host")
     none c10RTIn (by decide)).1 rfl,
   ((c10_dispatch_resolves_before_method c10RTIn c10ReqPost c10DialFail
     c10OpenEnv [] (fun _ => "") "" GoErr.eof (some c10Pair) c10RTIn
     (by decide)).2 rfl).1⟩
